import Mathlib

/-!
Shallow embedding of the deadline-tracking core of `ch_api_server.py`
(CH-Connect portfolio tracker): date math, urgency classification,
portfolio store operations, and the aggregation blocks of the
"My Companies" page.  Python dates are modelled as explicit
year/month/day triples with a proleptic-Gregorian ordinal (matching
`datetime.date.toordinal`), "today" is passed explicitly, and the
persisted JSON collection is passed as explicit state.
-/

namespace CH

/-- A calendar date, as produced by `datetime.strptime(s, "%Y-%m-%d").date()`. -/
structure Date where
  year : Nat
  month : Nat
  day : Nat
deriving DecidableEq, Repr

/-- Gregorian leap-year rule used by `datetime`. -/
def isLeap (y : Nat) : Bool :=
  y % 4 == 0 && (y % 100 != 0 || y % 400 == 0)

/-- Number of days in month `m` of year `y` (as validated by `datetime`). -/
def daysInMonth (y m : Nat) : Nat :=
  if m = 2 then (if isLeap y then 29 else 28)
  else if m = 4 ∨ m = 6 ∨ m = 9 ∨ m = 11 then 30
  else 31

/-- Days in year `y` strictly before month `m` (1-based). -/
def daysBeforeMonth (y m : Nat) : Nat :=
  let leap : Nat := if isLeap y then 1 else 0
  match m with
  | 1 => 0
  | 2 => 31
  | 3 => 59 + leap
  | 4 => 90 + leap
  | 5 => 120 + leap
  | 6 => 151 + leap
  | 7 => 181 + leap
  | 8 => 212 + leap
  | 9 => 243 + leap
  | 10 => 273 + leap
  | 11 => 304 + leap
  | _ => 334 + leap

/-- Proleptic Gregorian ordinal of a date, as `datetime.date.toordinal`:
0001-01-01 has ordinal 1.  Subtracting two ordinals gives the `.days` of
the `timedelta` between the two dates. -/
def toOrdinal (d : Date) : Nat :=
  let y := d.year - 1
  365 * y + y / 4 - y / 100 + y / 400 + daysBeforeMonth d.year d.month + d.day

/-- Split a character list on the `-` separator (the field separator of
the `"%Y-%m-%d"` format); adjacent or leading/trailing separators yield
empty groups, as `str.split("-")` would. -/
def splitDash : List Char → List (List Char)
  | [] => [[]]
  | c :: rest =>
    match splitDash rest with
    | [] => []
    | g :: gs => if c = '-' then [] :: g :: gs else (c :: g) :: gs

/-- Value of an all-digit character group (caller checks digitness). -/
def parseNat (s : List Char) : Nat :=
  s.foldl (fun n c => 10 * n + (c.toNat - 48)) 0

/-- `datetime.strptime(s, "%Y-%m-%d")` restricted to ASCII digits: the
year is exactly four digits, month and day one or two digits, no
surrounding junk, and the triple must be a real calendar date (year at
least 1, month 1..12, day within the month); any failure is a parse
error (`None`). -/
def parse_date (s : String) : Option Date :=
  match splitDash s.toList with
  | [ys, ms, ds] =>
    if ys.length == 4 && ys.all Char.isDigit &&
       (ms.length == 1 || ms.length == 2) && ms.all Char.isDigit &&
       (ds.length == 1 || ds.length == 2) && ds.all Char.isDigit then
      let y := parseNat ys
      let m := parseNat ms
      let d := parseNat ds
      if 1 ≤ y ∧ 1 ≤ m ∧ m ≤ 12 ∧ 1 ≤ d ∧ d ≤ daysInMonth y m then
        some ⟨y, m, d⟩
      else none
    else none
  | _ => none

/-- `days_until(date_str)`: days until the date (negative if in the
past), or `none` for the empty string, the `"N/A"` sentinel, or a
malformed string (the parse failure is swallowed).  `today` is the
`date.today()` of the run, passed explicitly. -/
def days_until (today : Date) (date_str : String) : Option Int :=
  if date_str = "" || date_str = "N/A" then none
  else
    match parse_date date_str with
    | none => none
    | some d => (toOrdinal d : Int) - (toOrdinal today : Int)

/-- `relative_label(date_str)`: human label such as `"in 2 months"`,
`"in 10 days"`, `"2 months ago"`, `"N/A"`. -/
def relative_label (today : Date) (date_str : String) : String :=
  match days_until today date_str with
  | none => "N/A"
  | some d =>
    if d < 0 then
      let days_ago := d.natAbs
      let months_ago := days_ago / 30
      if months_ago = 0 then
        toString days_ago ++ " days ago"
      else
        toString months_ago ++ " month" ++ (if months_ago ≠ 1 then "s" else "") ++ " ago"
    else if d < 30 then
      "in " ++ toString d ++ " days"
    else
      let months := d / 30
      "in " ++ toString months ++ " month" ++ (if months ≠ 1 then "s" else "")

/-- `status_label(date_str)`: colour-coded status string. -/
def status_label (today : Date) (date_str : String) : String :=
  match days_until today date_str with
  | none => "⚪ N/A"
  | some d =>
    if d < 0 then "🔴 Overdue"
    else if d ≤ 7 then "🟠 Due in 7 days"
    else if d ≤ 30 then "🟡 Due in 30 days"
    else "🟢 OK"

/-- `days_remaining(date_str)`: wrapper for summary tiles, same as `days_until`. -/
def days_remaining (today : Date) (date_str : String) : Option Int :=
  days_until today date_str

/-- One saved portfolio entry, as stored in `companies.json`
(`name`/`status` may be JSON `null` when the registry profile lacked them). -/
structure CompanyRecord where
  crn : String
  name : Option String
  status : Option String
  accounts_due : String
  cs_due : String
  last_updated : String
deriving DecidableEq, Repr

/-- `company_overall_status(company)`: combine Accounts + CS01 deadlines
into one status string; the minimum of the defined day offsets drives
the classification, and `"N/A"` is returned when both are undefined. -/
def company_overall_status (today : Date) (company : CompanyRecord) : String :=
  match ([days_remaining today company.accounts_due,
          days_remaining today company.cs_due].filterMap id).min? with
  | none => "N/A"
  | some min_days =>
    if min_days < 0 then "Overdue"
    else if min_days ≤ 7 then "Due in 7 days"
    else if min_days ≤ 30 then "Due in 30 days"
    else "OK"

/-- `add_company(company_data)`: state-passing form of the JSON-store
append; returns the new persisted collection and the boolean result
(`false` and no mutation when the CRN is already present). -/
def add_company (company_data : CompanyRecord) (companies : List CompanyRecord) :
    List CompanyRecord × Bool :=
  if companies.any (fun c => c.crn == company_data.crn) then
    (companies, false)
  else
    (companies ++ [company_data], true)

/-- A cleaned registry profile, as consumed by `refresh_company_data`
(`accounts.get("next_due")` and `confirmation_statement.get("next_due")`
are absent when the raw profile lacks them). -/
structure Profile where
  company_name : Option String
  company_status : Option String
  accounts_next_due : Option String
  cs_next_due : Option String

/-- `refresh_company_data(crn)`: fetch the profile through the external
`get_json` collaborator and build the cleaned record; `none` when the
lookup yields nothing.  The `crn` field of the result is the argument,
and `last_updated` is the formatted current date (`today_str`). -/
def refresh_company_data (get_json : String → Option Profile) (today_str : String)
    (crn : String) : Option CompanyRecord :=
  match get_json crn with
  | none => none
  | some profile =>
    some { crn := crn
           name := profile.company_name
           status := profile.company_status
           accounts_due := profile.accounts_next_due.getD "N/A"
           cs_due := profile.cs_next_due.getD "N/A"
           last_updated := today_str }

/-- `refresh_all_companies()`: state-passing form — `companies` is the
loaded collection, the returned list is the collection handed to
`save_companies` (a full replace), and the returned number is the count
reported to the user.  The per-company fetch is the `refresh`
collaborator (in the source, `refresh_company_data`). -/
def refresh_all_companies (refresh : String → Option CompanyRecord)
    (companies : List CompanyRecord) : List CompanyRecord × Nat :=
  let updated_list := companies.foldl
    (fun acc c =>
      match refresh c.crn with
      | some updated => acc ++ [updated]
      | none => acc)
    []
  (updated_list, updated_list.length)

/-- The filter block of the My Companies page: `"All"` passes the
collection through, any other choice keeps the records whose overall
status string equals the choice. -/
def filter_block (today : Date) (filter_choice : String)
    (companies : List CompanyRecord) : List CompanyRecord :=
  if filter_choice = "All" then companies
  else companies.filter (fun c => company_overall_status today c == filter_choice)

/-- The summary tiles of the My Companies page. -/
structure Summary where
  total : Nat
  due_30 : Nat
  due_7 : Nat
  overdue : Nat
deriving DecidableEq, Repr

/-- One iteration of the inner summary loop: bucket a single day offset. -/
def bucket_step (s : Summary) (d : Option Int) : Summary :=
  match d with
  | none => s
  | some d =>
    if d < 0 then { s with overdue := s.overdue + 1 }
    else if d ≤ 7 then { s with due_7 := s.due_7 + 1 }
    else if d ≤ 30 then { s with due_30 := s.due_30 + 1 }
    else s

/-- The summary-stats loop of the My Companies page: `total` is the
number of loaded companies, and each company contributes the offsets of
both of its deadline fields to the buckets. -/
def summarize (today : Date) (companies : List CompanyRecord) : Summary :=
  companies.foldl
    (fun s c =>
      bucket_step (bucket_step s (days_remaining today c.accounts_due))
        (days_remaining today c.cs_due))
    { total := companies.length, due_30 := 0, due_7 := 0, overdue := 0 }

/-! Spec-side vocabulary, used to state the claims: the §4.1 thresholds
on a defined day offset, the urgency dominance order, and the multiset
of per-deadline day offsets a collection contributes to the summary
buckets. -/

/-- The §4.1 thresholds applied to a defined day offset, in the
overall-status vocabulary. -/
def threshold_class (o : Int) : String :=
  if o < 0 then "Overdue"
  else if o ≤ 7 then "Due in 7 days"
  else if o ≤ 30 then "Due in 30 days"
  else "OK"

/-- Urgency rank: Overdue dominates Due in 7 days dominates Due in 30
days dominates OK. -/
def urgency_rank (s : String) : Nat :=
  if s = "Overdue" then 3
  else if s = "Due in 7 days" then 2
  else if s = "Due in 30 days" then 1
  else 0

/-- The more urgent of two status strings (ties keep the first). -/
def more_urgent (s t : String) : String :=
  if urgency_rank t ≤ urgency_rank s then s else t

/-- The day offsets contributed by a collection: both deadline fields of
every record, in iteration order. -/
def deadline_offsets (today : Date) : List CompanyRecord → List (Option Int)
  | [] => []
  | c :: rest =>
    days_remaining today c.accounts_due :: days_remaining today c.cs_due ::
      deadline_offsets today rest

/-- An offset counted by the overdue tile. -/
def in_overdue : Option Int → Bool
  | none => false
  | some o => decide (o < 0)

/-- An offset counted by the due-in-7-days tile. -/
def in_due7 : Option Int → Bool
  | none => false
  | some o => decide (0 ≤ o ∧ o ≤ 7)

/-- An offset counted by the due-in-30-days tile. -/
def in_due30 : Option Int → Bool
  | none => false
  | some o => decide (8 ≤ o ∧ o ≤ 30)

/-! Concrete data used by the closed instances below. -/

/-- The "today" of the spec's worked examples, 2024-03-02. -/
def c4_today : Date := ⟨2024, 3, 2⟩

/-- The 3-company portfolio of the spec's `summarize` example, realised
with concrete dates relative to a "today" of 2024-03-02: the
`(accountsDue, csDue)` day offsets are (-5, 10), (3, 3) and (None, 40). -/
def c4_portfolio : List CompanyRecord :=
  [⟨"00000001", some "A Ltd", some "active", "2024-02-26", "2024-03-12", "2024-03-02"⟩,
   ⟨"00000002", some "B Ltd", some "active", "2024-03-05", "2024-03-05", "2024-03-02"⟩,
   ⟨"00000003", some "C Ltd", some "active", "N/A", "2024-04-11", "2024-03-02"⟩]

/-- A record whose deadline offsets relative to 2024-03-02 are -5 and 10. -/
def c2_record : CompanyRecord :=
  ⟨"00000009", none, none, "2024-02-26", "2024-03-12", "2024-03-02"⟩

/-- A record used to exercise the duplicate-CRN branch of `add_company`. -/
def c7_record : CompanyRecord :=
  ⟨"00000004", none, none, "N/A", "N/A", "2024-03-02"⟩

/-- A record with no deadline data (overall status `"N/A"`). -/
def c8_record : CompanyRecord :=
  ⟨"00000005", none, none, "N/A", "N/A", "2024-03-02"⟩

/-- A cleaned profile returned by the concrete registry stub below. -/
def c10_profile : Profile :=
  ⟨some "A Ltd", some "active", some "2024-03-12", none⟩

/-- A registry stub that succeeds for exactly one CRN. -/
def c10_get_json : String → Option Profile :=
  fun crn => if crn = "00000001" then some c10_profile else none

/-- A stored collection with pairwise-distinct CRNs. -/
def c10_store : List CompanyRecord :=
  [⟨"00000001", none, none, "N/A", "N/A", "2024-01-01"⟩,
   ⟨"00000002", none, none, "N/A", "N/A", "2024-01-01"⟩]

/-! ### Helper lemmas -/

lemma int_four_cases (o : Int) :
    o < 0 ∨ (0 ≤ o ∧ o ≤ 7) ∨ (8 ≤ o ∧ o ≤ 30) ∨ 30 < o := by
  omega

lemma threshold_class_of_neg {o : Int} (h : o < 0) : threshold_class o = "Overdue" := by
  unfold threshold_class
  rw [if_pos h]

lemma threshold_class_of_le7 {o : Int} (h0 : 0 ≤ o) (h7 : o ≤ 7) :
    threshold_class o = "Due in 7 days" := by
  unfold threshold_class
  rw [if_neg (by omega), if_pos h7]

lemma threshold_class_of_le30 {o : Int} (h8 : 8 ≤ o) (h30 : o ≤ 30) :
    threshold_class o = "Due in 30 days" := by
  unfold threshold_class
  rw [if_neg (by omega), if_neg (by omega), if_pos h30]

lemma threshold_class_of_gt30 {o : Int} (h : 30 < o) : threshold_class o = "OK" := by
  unfold threshold_class
  rw [if_neg (by omega), if_neg (by omega), if_neg (by omega)]

lemma threshold_class_ne_na (o : Int) : threshold_class o ≠ "N/A" := by
  rcases int_four_cases o with h | ⟨h1, h2⟩ | ⟨h1, h2⟩ | h
  · rw [threshold_class_of_neg h]; decide
  · rw [threshold_class_of_le7 h1 h2]; decide
  · rw [threshold_class_of_le30 h1 h2]; decide
  · rw [threshold_class_of_gt30 h]; decide

lemma threshold_class_min (a b : Int) :
    threshold_class (min a b) = more_urgent (threshold_class a) (threshold_class b) := by
  rcases int_four_cases a with ha | ⟨ha1, ha2⟩ | ⟨ha1, ha2⟩ | ha <;>
    rcases int_four_cases b with hb | ⟨hb1, hb2⟩ | ⟨hb1, hb2⟩ | hb
  · have hm : threshold_class (min a b) = "Overdue" := threshold_class_of_neg (by omega)
    rw [hm, threshold_class_of_neg ha, threshold_class_of_neg hb]; decide
  · have hm : threshold_class (min a b) = "Overdue" := threshold_class_of_neg (by omega)
    rw [hm, threshold_class_of_neg ha, threshold_class_of_le7 hb1 hb2]; decide
  · have hm : threshold_class (min a b) = "Overdue" := threshold_class_of_neg (by omega)
    rw [hm, threshold_class_of_neg ha, threshold_class_of_le30 hb1 hb2]; decide
  · have hm : threshold_class (min a b) = "Overdue" := threshold_class_of_neg (by omega)
    rw [hm, threshold_class_of_neg ha, threshold_class_of_gt30 hb]; decide
  · have hm : threshold_class (min a b) = "Overdue" := threshold_class_of_neg (by omega)
    rw [hm, threshold_class_of_le7 ha1 ha2, threshold_class_of_neg hb]; decide
  · have hm : threshold_class (min a b) = "Due in 7 days" :=
      threshold_class_of_le7 (by omega) (by omega)
    rw [hm, threshold_class_of_le7 ha1 ha2, threshold_class_of_le7 hb1 hb2]; decide
  · have hm : threshold_class (min a b) = "Due in 7 days" :=
      threshold_class_of_le7 (by omega) (by omega)
    rw [hm, threshold_class_of_le7 ha1 ha2, threshold_class_of_le30 hb1 hb2]; decide
  · have hm : threshold_class (min a b) = "Due in 7 days" :=
      threshold_class_of_le7 (by omega) (by omega)
    rw [hm, threshold_class_of_le7 ha1 ha2, threshold_class_of_gt30 hb]; decide
  · have hm : threshold_class (min a b) = "Overdue" := threshold_class_of_neg (by omega)
    rw [hm, threshold_class_of_le30 ha1 ha2, threshold_class_of_neg hb]; decide
  · have hm : threshold_class (min a b) = "Due in 7 days" :=
      threshold_class_of_le7 (by omega) (by omega)
    rw [hm, threshold_class_of_le30 ha1 ha2, threshold_class_of_le7 hb1 hb2]; decide
  · have hm : threshold_class (min a b) = "Due in 30 days" :=
      threshold_class_of_le30 (by omega) (by omega)
    rw [hm, threshold_class_of_le30 ha1 ha2, threshold_class_of_le30 hb1 hb2]; decide
  · have hm : threshold_class (min a b) = "Due in 30 days" :=
      threshold_class_of_le30 (by omega) (by omega)
    rw [hm, threshold_class_of_le30 ha1 ha2, threshold_class_of_gt30 hb]; decide
  · have hm : threshold_class (min a b) = "Overdue" := threshold_class_of_neg (by omega)
    rw [hm, threshold_class_of_gt30 ha, threshold_class_of_neg hb]; decide
  · have hm : threshold_class (min a b) = "Due in 7 days" :=
      threshold_class_of_le7 (by omega) (by omega)
    rw [hm, threshold_class_of_gt30 ha, threshold_class_of_le7 hb1 hb2]; decide
  · have hm : threshold_class (min a b) = "Due in 30 days" :=
      threshold_class_of_le30 (by omega) (by omega)
    rw [hm, threshold_class_of_gt30 ha, threshold_class_of_le30 hb1 hb2]; decide
  · have hm : threshold_class (min a b) = "OK" := threshold_class_of_gt30 (by omega)
    rw [hm, threshold_class_of_gt30 ha, threshold_class_of_gt30 hb]; decide

lemma company_overall_status_nn {today : Date} {c : CompanyRecord}
    (h1 : days_remaining today c.accounts_due = none)
    (h2 : days_remaining today c.cs_due = none) :
    company_overall_status today c = "N/A" := by
  unfold company_overall_status
  rw [h1, h2]
  rfl

lemma company_overall_status_sn {today : Date} {c : CompanyRecord} {a : Int}
    (h1 : days_remaining today c.accounts_due = some a)
    (h2 : days_remaining today c.cs_due = none) :
    company_overall_status today c = threshold_class a := by
  unfold company_overall_status threshold_class
  rw [h1, h2]
  rfl

lemma company_overall_status_ns {today : Date} {c : CompanyRecord} {b : Int}
    (h1 : days_remaining today c.accounts_due = none)
    (h2 : days_remaining today c.cs_due = some b) :
    company_overall_status today c = threshold_class b := by
  unfold company_overall_status threshold_class
  rw [h1, h2]
  rfl

lemma company_overall_status_ss {today : Date} {c : CompanyRecord} {a b : Int}
    (h1 : days_remaining today c.accounts_due = some a)
    (h2 : days_remaining today c.cs_due = some b) :
    company_overall_status today c = threshold_class (min a b) := by
  unfold company_overall_status threshold_class
  rw [h1, h2]
  rfl

lemma status_label_of_offset {today : Date} {s : String} {o : Int}
    (ho : days_until today s = some o) :
    status_label today s =
      if o < 0 then "🔴 Overdue"
      else if o ≤ 7 then "🟠 Due in 7 days"
      else if o ≤ 30 then "🟡 Due in 30 days"
      else "🟢 OK" := by
  unfold status_label
  rw [ho]

/-! ### Claim theorems -/

/-- C1: `status_label` (via `days_until`) yields the N/A status exactly
when the day offset is undefined — in particular for the empty string,
the `"N/A"` sentinel and a malformed string — and for a defined offset
`o` it yields Overdue iff `o < 0`, Due in 7 days iff `0 ≤ o ≤ 7`,
Due in 30 days iff `8 ≤ o ≤ 30`, and OK iff `o > 30`; the class
therefore switches exactly at the offset boundaries -1/0, 7/8 and 30/31. -/
theorem status_label_spec (today : Date) (s : String) :
    (days_until today s = none → status_label today s = "⚪ N/A")
    ∧ (∀ o : Int, days_until today s = some o →
        (status_label today s = "🔴 Overdue" ↔ o < 0)
        ∧ (status_label today s = "🟠 Due in 7 days" ↔ 0 ≤ o ∧ o ≤ 7)
        ∧ (status_label today s = "🟡 Due in 30 days" ↔ 8 ≤ o ∧ o ≤ 30)
        ∧ (status_label today s = "🟢 OK" ↔ 30 < o))
    ∧ days_until today "" = none
    ∧ days_until today "N/A" = none
    ∧ days_until today "2024-13-01" = none := by
  refine ⟨fun h => ?_, fun o ho => ?_, rfl, rfl, rfl⟩
  · unfold status_label
    rw [h]
  · rw [status_label_of_offset ho]
    by_cases h0 : o < 0
    · rw [if_pos h0]
      exact ⟨iff_of_true rfl h0, iff_of_false (by decide) (by omega),
             iff_of_false (by decide) (by omega), iff_of_false (by decide) (by omega)⟩
    · by_cases h7 : o ≤ 7
      · rw [if_neg h0, if_pos h7]
        exact ⟨iff_of_false (by decide) h0, iff_of_true rfl ⟨by omega, h7⟩,
               iff_of_false (by decide) (by omega), iff_of_false (by decide) (by omega)⟩
      · by_cases h30 : o ≤ 30
        · rw [if_neg h0, if_neg h7, if_pos h30]
          exact ⟨iff_of_false (by decide) h0, iff_of_false (by decide) (by omega),
                 iff_of_true rfl ⟨by omega, h30⟩, iff_of_false (by decide) (by omega)⟩
        · rw [if_neg h0, if_neg h7, if_neg h30]
          exact ⟨iff_of_false (by decide) h0, iff_of_false (by decide) (by omega),
                 iff_of_false (by decide) (by omega), iff_of_true rfl (by omega)⟩

/-- C1 witness: a date 7 days after "today" is classified Due in 7 days. -/
theorem status_label_spec_witness :
    status_label ⟨2024, 3, 2⟩ "2024-03-09" = "🟠 Due in 7 days" :=
  ((status_label_spec ⟨2024, 3, 2⟩ "2024-03-09").2.1 7 (by decide)).2.1.mpr (by decide)

/-- C2: `company_overall_status` returns `"N/A"` exactly when both
deadline offsets are undefined; otherwise it applies the §4.1 thresholds
to the minimum of the defined offsets, which coincides with the more
urgent of the two per-deadline threshold classes. -/
theorem company_overall_status_spec (today : Date) (c : CompanyRecord) :
    (company_overall_status today c = "N/A" ↔
      days_remaining today c.accounts_due = none ∧ days_remaining today c.cs_due = none)
    ∧ (∀ a : Int, days_remaining today c.accounts_due = some a →
        days_remaining today c.cs_due = none →
        company_overall_status today c = threshold_class a)
    ∧ (∀ b : Int, days_remaining today c.accounts_due = none →
        days_remaining today c.cs_due = some b →
        company_overall_status today c = threshold_class b)
    ∧ (∀ a b : Int, days_remaining today c.accounts_due = some a →
        days_remaining today c.cs_due = some b →
        company_overall_status today c = threshold_class (min a b)
        ∧ company_overall_status today c
            = more_urgent (threshold_class a) (threshold_class b)) := by
  refine ⟨⟨?_, fun h => company_overall_status_nn h.1 h.2⟩,
          fun a h1 h2 => company_overall_status_sn h1 h2,
          fun b h1 h2 => company_overall_status_ns h1 h2,
          fun a b h1 h2 => ⟨company_overall_status_ss h1 h2,
            (company_overall_status_ss h1 h2).trans (threshold_class_min a b)⟩⟩
  intro h
  rcases ha : days_remaining today c.accounts_due with _ | a
  · rcases hb : days_remaining today c.cs_due with _ | b
    · exact ⟨rfl, rfl⟩
    · exact absurd ((company_overall_status_ns ha hb).symm.trans h)
        (threshold_class_ne_na b)
  · rcases hb : days_remaining today c.cs_due with _ | b
    · exact absurd ((company_overall_status_sn ha hb).symm.trans h)
        (threshold_class_ne_na a)
    · exact absurd ((company_overall_status_ss ha hb).symm.trans h)
        (threshold_class_ne_na (min a b))

/-- C2 witness: a record with offsets -5 and 10 is classified from the
minimum offset -5. -/
theorem company_overall_status_spec_witness :
    company_overall_status ⟨2024, 3, 2⟩ c2_record = threshold_class (min (-5) 10) :=
  ((company_overall_status_spec ⟨2024, 3, 2⟩ c2_record).2.2.2 (-5) 10
    (by decide) (by decide)).1

/-- C4 counterexample: on the spec's own 3-company portfolio with
offsets (-5, 10), (3, 3) and (None, 40), the due-in-7 counter is 2 (one
increment per offset of 3), not the claimed 3. -/
theorem summarize_c4_counterexample :
    days_remaining c4_today "2024-02-26" = some (-5)
    ∧ days_remaining c4_today "2024-03-12" = some 10
    ∧ days_remaining c4_today "2024-03-05" = some 3
    ∧ days_remaining c4_today "N/A" = none
    ∧ days_remaining c4_today "2024-04-11" = some 40
    ∧ (summarize c4_today c4_portfolio).due_7 = 2
    ∧ ¬ ((summarize c4_today c4_portfolio).overdue = 1
         ∧ (summarize c4_today c4_portfolio).due_7 = 3
         ∧ (summarize c4_today c4_portfolio).due_30 = 1) := by
  decide

/-- C4 amended: on the 3-company portfolio with offsets (-5, 10), (3, 3)
and (None, 40), `summarize` returns overdue = 1, dueIn7 = 2 and
dueIn30 = 1 (with total = 3). -/
theorem summarize_c4_amended :
    (summarize c4_today c4_portfolio).total = 3
    ∧ (summarize c4_today c4_portfolio).overdue = 1
    ∧ (summarize c4_today c4_portfolio).due_7 = 2
    ∧ (summarize c4_today c4_portfolio).due_30 = 1 := by
  decide

/-- C5 counterexample: with "today" = 2024-03-02, the date 2024-01-01 is
61 days in the past (offset -61), so `relative_label` takes the
past-date branch and does not return "in 2 months". -/
theorem relative_label_c5_counterexample :
    days_until ⟨2024, 3, 2⟩ "2024-01-01" = some (-61)
    ∧ relative_label ⟨2024, 3, 2⟩ "2024-01-01" ≠ "in 2 months" := by
  decide

/-- C5 amended: with "today" = 2024-03-02, `relative_label` applied to
"2024-01-01" returns "2 months ago" (61 days in the past, 61 // 30 = 2). -/
theorem relative_label_c5_amended :
    relative_label ⟨2024, 3, 2⟩ "2024-01-01" = "2 months ago" := by
  decide

lemma bucket_step_eq (s : Summary) (d : Option Int) :
    bucket_step s d =
      { total := s.total,
        due_30 := s.due_30 + (if in_due30 d then 1 else 0),
        due_7 := s.due_7 + (if in_due7 d then 1 else 0),
        overdue := s.overdue + (if in_overdue d then 1 else 0) } := by
  rcases d with _ | o
  · rfl
  · by_cases h0 : o < 0
    · have h7 : ¬ (0 ≤ o ∧ o ≤ 7) := by omega
      have h30 : ¬ (8 ≤ o ∧ o ≤ 30) := by omega
      simp [bucket_step, in_overdue, in_due7, in_due30, h0, h7, h30]
    · by_cases h7 : o ≤ 7
      · have ha : 0 ≤ o ∧ o ≤ 7 := by omega
        have h30 : ¬ (8 ≤ o ∧ o ≤ 30) := by omega
        simp [bucket_step, in_overdue, in_due7, in_due30, h0, h7, ha, h30]
      · by_cases h30 : o ≤ 30
        · have ha : ¬ (0 ≤ o ∧ o ≤ 7) := by omega
          have hb : 8 ≤ o ∧ o ≤ 30 := by omega
          simp [bucket_step, in_overdue, in_due7, in_due30, h0, h7, h30, ha, hb]
        · have ha : ¬ (0 ≤ o ∧ o ≤ 7) := by omega
          have hb : ¬ (8 ≤ o ∧ o ≤ 30) := by omega
          simp [bucket_step, in_overdue, in_due7, in_due30, h0, h7, h30, ha, hb]

lemma summarize_foldl (today : Date) (companies : List CompanyRecord) :
    ∀ init : Summary,
      companies.foldl
          (fun s c =>
            bucket_step (bucket_step s (days_remaining today c.accounts_due))
              (days_remaining today c.cs_due)) init
        = { total := init.total,
            due_30 := init.due_30 + (deadline_offsets today companies).countP in_due30,
            due_7 := init.due_7 + (deadline_offsets today companies).countP in_due7,
            overdue := init.overdue + (deadline_offsets today companies).countP in_overdue } := by
  induction companies with
  | nil =>
    intro init
    simp [deadline_offsets]
  | cons c rest ih =>
    intro init
    rw [List.foldl_cons, ih, bucket_step_eq, bucket_step_eq]
    simp only [deadline_offsets, List.countP_cons, Summary.mk.injEq]
    refine ⟨trivial, ?_, ?_, ?_⟩ <;> omega

/-- C3: `summarize` sets `total` to the number of records and obtains
the three deadline counters by bucketing every day offset of the two
deadline fields of every record: an undefined offset is counted nowhere,
and a defined offset is counted exactly once — under overdue if
negative, due-in-7 if in `[0, 7]`, due-in-30 if in `[8, 30]`, and
nowhere if above 30 (so each company adds at most two increments). -/
theorem summarize_spec (today : Date) (companies : List CompanyRecord) :
    (summarize today companies).total = companies.length
    ∧ (summarize today companies).overdue
        = (deadline_offsets today companies).countP in_overdue
    ∧ (summarize today companies).due_7
        = (deadline_offsets today companies).countP in_due7
    ∧ (summarize today companies).due_30
        = (deadline_offsets today companies).countP in_due30
    ∧ in_overdue none = false ∧ in_due7 none = false ∧ in_due30 none = false
    ∧ ∀ o : Int,
        (in_overdue (some o)).toNat + (in_due7 (some o)).toNat
            + (in_due30 (some o)).toNat
          = if 30 < o then 0 else 1 := by
  have h := summarize_foldl today companies
    { total := companies.length, due_30 := 0, due_7 := 0, overdue := 0 }
  refine ⟨?_, ?_, ?_, ?_, rfl, rfl, rfl, fun o => ?_⟩
  · unfold summarize
    rw [h]
  · unfold summarize
    rw [h]
    simp
  · unfold summarize
    rw [h]
    simp
  · unfold summarize
    rw [h]
    simp
  · rcases int_four_cases o with h0 | ⟨h1, h2⟩ | ⟨h1, h2⟩ | h0
    · have hx : ¬ (0 ≤ o ∧ o ≤ 7) := by omega
      have hy : ¬ (8 ≤ o ∧ o ≤ 30) := by omega
      have hz : ¬ (30 < o) := by omega
      simp [in_overdue, in_due7, in_due30, h0, hx, hy, hz]
    · have hx : 0 ≤ o ∧ o ≤ 7 := by omega
      have hy : ¬ (8 ≤ o ∧ o ≤ 30) := by omega
      have hz : ¬ (30 < o) := by omega
      have hw : ¬ (o < 0) := by omega
      simp [in_overdue, in_due7, in_due30, hx, hy, hz, hw]
    · have hx : ¬ (0 ≤ o ∧ o ≤ 7) := by omega
      have hy : 8 ≤ o ∧ o ≤ 30 := by omega
      have hz : ¬ (30 < o) := by omega
      have hw : ¬ (o < 0) := by omega
      simp [in_overdue, in_due7, in_due30, hx, hy, hz, hw]
    · have hx : ¬ (0 ≤ o ∧ o ≤ 7) := by omega
      have hy : ¬ (8 ≤ o ∧ o ≤ 30) := by omega
      have hw : ¬ (o < 0) := by omega
      simp [in_overdue, in_due7, in_due30, h0, hx, hy, hw]

lemma refresh_foldl_eq (refresh : String → Option CompanyRecord)
    (companies : List CompanyRecord) :
    ∀ acc : List CompanyRecord,
      companies.foldl
          (fun acc c =>
            match refresh c.crn with
            | some updated => acc ++ [updated]
            | none => acc) acc
        = acc ++ companies.filterMap (fun c => refresh c.crn) := by
  induction companies with
  | nil =>
    intro acc
    simp
  | cons c rest ih =>
    intro acc
    rcases hc : refresh c.crn with _ | u <;>
      simp only [List.foldl_cons, hc] <;>
      rw [ih] <;>
      simp [List.filterMap_cons, hc]

/-- C6: `refresh_all_companies` builds the collection that replaces the
persisted one from exactly the stored records whose per-CRN fetch
succeeded, in the original iteration order (the `filterMap` of the fetch
over the stored collection), and returns the number of successfully
refreshed records; a record whose fetch yields nothing contributes no
entry to the new collection. -/
theorem refresh_all_companies_spec (refresh : String → Option CompanyRecord)
    (companies : List CompanyRecord) :
    (refresh_all_companies refresh companies).1
        = companies.filterMap (fun c => refresh c.crn)
    ∧ (refresh_all_companies refresh companies).2
        = (companies.filterMap (fun c => refresh c.crn)).length
    ∧ ∀ r : CompanyRecord,
        (r ∈ (refresh_all_companies refresh companies).1 ↔
          ∃ c ∈ companies, refresh c.crn = some r) := by
  have h1 : (refresh_all_companies refresh companies).1
      = companies.filterMap (fun c => refresh c.crn) := by
    simp only [refresh_all_companies]
    rw [refresh_foldl_eq refresh companies []]
    simp
  refine ⟨h1, ?_, fun r => ?_⟩
  · simp only [refresh_all_companies]
    rw [refresh_foldl_eq refresh companies []]
    simp
  · rw [h1]
    exact List.mem_filterMap

/-- C7: `add_company` returns `false` and leaves the collection
unchanged when a stored record already carries the new record's CRN, and
otherwise appends the record and returns `true`; consequently, on a
store holding at most one record with that CRN, adding twice leaves
exactly one record with that CRN and the second call returns `false`. -/
theorem add_company_spec (r : CompanyRecord) (companies : List CompanyRecord) :
    ((∃ c ∈ companies, c.crn = r.crn) → add_company r companies = (companies, false))
    ∧ ((∀ c ∈ companies, c.crn ≠ r.crn) →
        add_company r companies = (companies ++ [r], true))
    ∧ (companies.countP (fun c => c.crn == r.crn) ≤ 1 →
        ((add_company r (add_company r companies).1).1.countP
            (fun c => c.crn == r.crn) = 1
         ∧ (add_company r (add_company r companies).1).2 = false)) := by
  by_cases h : companies.any (fun c => c.crn == r.crn)
  · have hadd : add_company r companies = (companies, false) := by
      unfold add_company
      rw [if_pos h]
    refine ⟨fun _ => hadd, fun hall => ?_, fun hle => ?_⟩
    · obtain ⟨c, hc, he⟩ := List.any_eq_true.mp h
      exact absurd (by simpa using he) (hall c hc)
    · have hpos : 0 < companies.countP (fun c => c.crn == r.crn) := by
        rw [List.countP_pos_iff]
        exact List.any_eq_true.mp h
      have h1c : companies.countP (fun c => c.crn == r.crn) = 1 := by omega
      simp [hadd, h1c]
  · have hadd : add_company r companies = (companies ++ [r], true) := by
      unfold add_company
      rw [if_neg h]
    have hnone : ∀ c ∈ companies, (c.crn == r.crn) = false := by
      intro c hc
      rcases hb : (c.crn == r.crn) with _ | _
      · rfl
      · exact absurd (List.any_eq_true.mpr ⟨c, hc, hb⟩) h
    have hzero : companies.countP (fun c => c.crn == r.crn) = 0 := by
      rw [List.countP_eq_zero]
      intro c hc
      simp [hnone c hc]
    refine ⟨fun hex => ?_, fun _ => hadd, fun _ => ?_⟩
    · obtain ⟨c, hc, he⟩ := hex
      have := hnone c hc
      rw [he] at this
      simp at this
    · have hAny2 : (companies ++ [r]).any (fun c => c.crn == r.crn) = true := by
        simp
      have hadd2 : add_company r (companies ++ [r]) = (companies ++ [r], false) := by
        unfold add_company
        rw [if_pos hAny2]
      simp [hadd, hadd2, List.countP_append, hzero, List.countP_cons]

/-- C7 witness: adding the same record twice to an empty store leaves
exactly one record with its CRN and the second call returns `false`. -/
theorem add_company_spec_witness :
    (add_company c7_record (add_company c7_record []).1).1.countP
        (fun c => c.crn == c7_record.crn) = 1
    ∧ (add_company c7_record (add_company c7_record []).1).2 = false :=
  (add_company_spec c7_record []).2.2 (by decide)

/-- C8: the filter block passes every record through for the `"All"`
choice; any other choice retains exactly the records whose overall
status equals the choice; and a record whose overall status is `"N/A"`
is never retained by any of the four non-All choices. -/
theorem filter_block_spec (today : Date) (filter_choice : String)
    (companies : List CompanyRecord) :
    filter_block today "All" companies = companies
    ∧ (filter_choice ≠ "All" →
        ∀ c : CompanyRecord,
          (c ∈ filter_block today filter_choice companies ↔
            c ∈ companies ∧ company_overall_status today c = filter_choice))
    ∧ (∀ c : CompanyRecord, company_overall_status today c = "N/A" →
        filter_choice ∈ ["Overdue", "Due in 7 days", "Due in 30 days", "OK"] →
        c ∉ filter_block today filter_choice companies) := by
  refine ⟨by simp [filter_block], fun hne c => ?_, fun c hna hmem => ?_⟩
  · unfold filter_block
    rw [if_neg hne]
    simp [List.mem_filter]
  · fin_cases hmem <;>
      (unfold filter_block
       rw [if_neg (by decide)]
       intro hc
       have hx := (List.mem_filter.mp hc).2
       rw [hna] at hx
       exact absurd hx (by decide))

/-- C8 witness: a record with overall status `"N/A"` is not retained by
the Overdue choice. -/
theorem filter_block_spec_witness :
    c8_record ∉ filter_block ⟨2024, 3, 2⟩ "Overdue" [c8_record] :=
  (filter_block_spec ⟨2024, 3, 2⟩ "Overdue" [c8_record]).2.2 c8_record
    (by decide) (by decide)

lemma refresh_company_data_crn (get_json : String → Option Profile) (today_str : String) :
    ∀ crn r, refresh_company_data get_json today_str crn = some r → r.crn = crn := by
  intro crn r h
  unfold refresh_company_data at h
  rcases hg : get_json crn with _ | p
  · rw [hg] at h
    exact Option.noConfusion h
  · rw [hg] at h
    cases h
    rfl

lemma filterMap_crn_sublist (f : String → Option CompanyRecord)
    (hf : ∀ crn r, f crn = some r → r.crn = crn) :
    ∀ companies : List CompanyRecord,
      ((companies.filterMap (fun c => f c.crn)).map CompanyRecord.crn).Sublist
        (companies.map CompanyRecord.crn)
  | [] => by simp
  | c :: rest => by
    rcases hc : f c.crn with _ | u
    · simp only [List.filterMap_cons, hc, List.map_cons]
      exact (filterMap_crn_sublist f hf rest).cons c.crn
    · simp only [List.filterMap_cons, hc, List.map_cons, hf c.crn u hc]
      exact (filterMap_crn_sublist f hf rest).cons₂ c.crn

/-- C10: a successful `refresh_company_data` always returns a record
whose `crn` field is the CRN it was fetched for; consequently
`refresh_all_companies` maps a stored collection with pairwise-distinct
CRNs to a persisted collection with pairwise-distinct CRNs. -/
theorem refresh_all_crn_invariant (get_json : String → Option Profile)
    (today_str : String) (companies : List CompanyRecord) :
    (∀ crn r, refresh_company_data get_json today_str crn = some r → r.crn = crn)
    ∧ ((companies.map CompanyRecord.crn).Nodup →
        (((refresh_all_companies (refresh_company_data get_json today_str)
              companies).1).map CompanyRecord.crn).Nodup) := by
  refine ⟨refresh_company_data_crn get_json today_str, fun hnd => ?_⟩
  have h1 : (refresh_all_companies (refresh_company_data get_json today_str) companies).1
      = companies.filterMap (fun c => refresh_company_data get_json today_str c.crn) := by
    simp only [refresh_all_companies]
    rw [refresh_foldl_eq]
    simp
  rw [h1]
  exact hnd.sublist
    (filterMap_crn_sublist (refresh_company_data get_json today_str)
      (refresh_company_data_crn get_json today_str) companies)

/-- C10 witness: refreshing a two-company store with distinct CRNs
through a stub registry yields a store whose CRNs are still distinct. -/
theorem refresh_all_crn_invariant_witness :
    (((refresh_all_companies (refresh_company_data c10_get_json "2024-03-02")
          c10_store).1).map CompanyRecord.crn).Nodup :=
  (refresh_all_crn_invariant c10_get_json "2024-03-02" c10_store).2 (by decide)

end CH
